import Mathlib

/-!
# FrameDecoder.h — drop policy, rect extraction and tile progress

A shallow embedding of the inline members of `FrameDecoder`,
`VideoFrameDecoder` and `MediaImageDecoder` declared in
`media/libstagefright/include/FrameDecoder.h`.

Conventions:
* `int64_t` and `int32_t` values are `Int`.  The embedded bodies only compare
  timestamps, they never add or subtract them, so no wrap-around can occur and
  every theorem proved for all `Int` holds in particular for all 64-bit values.
* A pointer argument that may be `NULL` is an `Option`.
* `status_t` is `Int`.  The numeric values of `OK` and `ERROR_UNSUPPORTED` are
  declared in headers that are not part of the source, so they are carried in a
  `StatusCodes` record.
-/

namespace android

/-- The two `status_t` constants used by the inline bodies of the header. -/
structure StatusCodes where
  OK : Int
  ERROR_UNSUPPORTED : Int
  deriving DecidableEq, Repr

/-- Mirror of `struct FrameRect { int32_t left, top, right, bottom; }`. -/
structure FrameRect where
  left : Int
  top : Int
  right : Int
  bottom : Int
  deriving DecidableEq, Repr

namespace FrameDecoder

/-- Base `FrameDecoder::shouldDropOutput(int64_t ptsUs __unused)`: `return false;`. -/
def shouldDropOutput (_ptsUs : Int) : Bool :=
  false

end FrameDecoder

namespace VideoFrameDecoder

/-- Override `VideoFrameDecoder::shouldDropOutput(int64_t ptsUs)`:
`return !((mTargetTimeUs < 0LL) || (ptsUs >= mTargetTimeUs));`. -/
def shouldDropOutput (mTargetTimeUs ptsUs : Int) : Bool :=
  !((decide (mTargetTimeUs < 0)) || (decide (ptsUs ≥ mTargetTimeUs)))

/-- Override `VideoFrameDecoder::onExtractRect(FrameRect *rect)`:
`return (rect == NULL) ? OK : ERROR_UNSUPPORTED;`. -/
def onExtractRect (c : StatusCodes) (rect : Option FrameRect) : Int :=
  if rect = none then c.OK else c.ERROR_UNSUPPORTED

end VideoFrameDecoder

namespace MediaImageDecoder

/-- Override `MediaImageDecoder::onInputReceived(codecBuffer, sampleMeta, firstSample, flags)`
with body `{ return OK; }`.  The reference parameter `sampleMeta` and the
pointee of `flags` are threaded through: the result is the returned status
together with the sample metadata and the flags word after the call. -/
def onInputReceived {Buffer Meta : Type} (c : StatusCodes) (_codecBuffer : Buffer)
    (sampleMeta : Meta) (_firstSample : Bool) (flags : Option Nat) :
    Int × Meta × Option Nat :=
  (c.OK, sampleMeta, flags)

/-- The two private counters `int32_t mTilesDecoded; int32_t mTargetTiles;`
of `MediaImageDecoder`. -/
structure TileProgress where
  mTilesDecoded : Int
  mTargetTiles : Int
  deriving DecidableEq, Repr

/-- Modelled from the spec: the state of the tiled image policy right after grid
setup (the constructor and `onGetFormatAndSeekOptions` live in
`FrameDecoder.cpp`, which is not part of the source).  No tile has been decoded
and the target-tile count is the one fixed by grid setup. -/
def start (targetTiles : Int) : TileProgress × Bool :=
  (⟨0, targetTiles⟩, false)

/-- Modelled from the spec: the body of `MediaImageDecoder::onOutputReceived`
(defined in `FrameDecoder.cpp`, which is not part of the source), restricted to
the tile counters.  On each decoded tile it "increments the decoded-tile
counter, and sets `done` once the counter reaches target-tile count".  The
result is the new counters and the value written to `*done`. -/
def onOutputReceived (s : TileProgress) : TileProgress × Bool :=
  let n := s.mTilesDecoded + 1
  (⟨n, s.mTargetTiles⟩, decide (n = s.mTargetTiles))

/-- Modelled from the spec: the drain side of the control loop of
`extractInternal` (defined in `FrameDecoder.cpp`, which is not part of the
source): "while the session has not signaled completion" each ready output is
handed to `onOutputReceived`.  `outputs` is the number of decoded tiles the
session delivers. -/
def drain : (outputs : Nat) → TileProgress × Bool → TileProgress × Bool
  | 0, st => st
  | k + 1, st => if st.2 then st else drain k (onOutputReceived st.1)

end MediaImageDecoder

/-- The concrete policies deriving from `FrameDecoder`, with the member the
drop policy reads. -/
inductive Policy where
  | VideoFrameDecoder (mTargetTimeUs : Int)
  | MediaImageDecoder
  deriving DecidableEq, Repr

/-- Virtual dispatch of `shouldDropOutput`: `VideoFrameDecoder` overrides it,
`MediaImageDecoder` declares no override and so inherits the base body. -/
def Policy.shouldDropOutput : Policy → Int → Bool
  | .VideoFrameDecoder mTargetTimeUs, ptsUs =>
      android.VideoFrameDecoder.shouldDropOutput mTargetTimeUs ptsUs
  | .MediaImageDecoder, ptsUs => android.FrameDecoder.shouldDropOutput ptsUs

/-- Invariant carried by the drain loop of the tiled image policy. -/
def MediaImageDecoder.Inv (target : Int) (st : MediaImageDecoder.TileProgress × Bool) : Prop :=
  st.1.mTargetTiles = target ∧ 0 ≤ st.1.mTilesDecoded ∧ st.1.mTilesDecoded ≤ target ∧
    (st.2 = true ↔ st.1.mTilesDecoded = target)

/-! ## Helper lemmas -/

theorem VideoFrameDecoder.shouldDropOutput_eq_true_iff (T pts : Int) :
    VideoFrameDecoder.shouldDropOutput T pts = true ↔ 0 ≤ T ∧ pts < T := by
  unfold VideoFrameDecoder.shouldDropOutput
  simp only [Bool.not_eq_true', Bool.or_eq_false_iff, decide_eq_false_iff_not, not_lt, ge_iff_le,
    not_le]

theorem VideoFrameDecoder.shouldDropOutput_eq_false_iff (T pts : Int) :
    VideoFrameDecoder.shouldDropOutput T pts = false ↔ T < 0 ∨ T ≤ pts := by
  unfold VideoFrameDecoder.shouldDropOutput
  simp only [Bool.not_eq_false', Bool.or_eq_true, decide_eq_true_eq, ge_iff_le]

theorem MediaImageDecoder.inv_start (target : Int) (h : 1 ≤ target) :
    MediaImageDecoder.Inv target (MediaImageDecoder.start target) := by
  refine ⟨rfl, le_refl _, ?_, ?_⟩
  · show (0 : Int) ≤ target
    omega
  · show (false = true ↔ (0 : Int) = target)
    constructor
    · intro hf; cases hf
    · intro h0; omega

theorem MediaImageDecoder.inv_step (target : Int) (st : MediaImageDecoder.TileProgress × Bool)
    (hinv : MediaImageDecoder.Inv target st) (hnd : st.2 = false) :
    MediaImageDecoder.Inv target (MediaImageDecoder.onOutputReceived st.1) := by
  obtain ⟨ht, h0, hle, hiff⟩ := hinv
  have hne : st.1.mTilesDecoded ≠ target := by
    intro he
    rw [hiff.mpr he] at hnd
    cases hnd
  refine ⟨ht, ?_, ?_, ?_⟩
  · show 0 ≤ st.1.mTilesDecoded + 1
    omega
  · show st.1.mTilesDecoded + 1 ≤ target
    omega
  · show (decide (st.1.mTilesDecoded + 1 = st.1.mTargetTiles) = true ↔
      st.1.mTilesDecoded + 1 = target)
    rw [ht, decide_eq_true_iff]

theorem MediaImageDecoder.inv_drain (target : Int) (n : Nat) :
    ∀ st, MediaImageDecoder.Inv target st →
      MediaImageDecoder.Inv target (MediaImageDecoder.drain n st) := by
  induction n with
  | zero => intro st h; exact h
  | succ k ih =>
    intro st h
    unfold MediaImageDecoder.drain
    by_cases hd : st.2 = true
    · rw [if_pos hd]; exact h
    · rw [if_neg hd]
      exact ih _ (MediaImageDecoder.inv_step target st h (by simpa using hd))

/-! ## The drop policy of the video frame policy -/

/-- Claim C1. With a target timestamp `T ≥ 0`, `VideoFrameDecoder::shouldDropOutput(pts)`
returns true (drop) if and only if `pts < T`; at the boundary `pts = T` it
returns false (accept). -/
theorem video_drop_iff_before_target (T pts : Int) (hT : 0 ≤ T) :
    (VideoFrameDecoder.shouldDropOutput T pts = true ↔ pts < T) ∧
      VideoFrameDecoder.shouldDropOutput T T = false := by
  constructor
  · rw [VideoFrameDecoder.shouldDropOutput_eq_true_iff]
    exact ⟨fun h => h.2, fun h => ⟨hT, h⟩⟩
  · rw [VideoFrameDecoder.shouldDropOutput_eq_false_iff]
    exact Or.inr (le_refl T)

theorem video_drop_iff_before_target_witness :
    (0 : Int) ≤ 1000 ∧
      ((VideoFrameDecoder.shouldDropOutput 1000 999 = true ↔ (999 : Int) < 1000) ∧
        VideoFrameDecoder.shouldDropOutput 1000 1000 = false) :=
  ⟨by decide, video_drop_iff_before_target 1000 999 (by decide)⟩

/-- Claim C2. With a negative target timestamp (the "no target" sentinel),
`VideoFrameDecoder::shouldDropOutput(pts)` returns false for every output
timestamp, negative ones and ones below the target included. -/
theorem video_no_target_accepts_all (T pts : Int) (hT : T < 0) :
    VideoFrameDecoder.shouldDropOutput T pts = false := by
  rw [VideoFrameDecoder.shouldDropOutput_eq_false_iff]
  exact Or.inl hT

theorem video_no_target_accepts_all_witness :
    (-1 : Int) < 0 ∧ VideoFrameDecoder.shouldDropOutput (-1) (-5) = false :=
  ⟨by decide, video_no_target_accepts_all (-1) (-5) (by decide)⟩

/-- Claim C3. For every requested target timestamp `T` (a target was requested,
`T ≥ 0`) and every finite sequence of output timestamps, if `pts` is the first
element of the sequence on which `VideoFrameDecoder::shouldDropOutput` returns
false, then `pts` is accepted with `pts ≥ T`, and every output that precedes it
in the sequence was dropped. -/
theorem video_first_accepted_output (T : Int) (hT : 0 ≤ T) (seq : List Int) (pts : Int)
    (hacc : seq.find? (fun p => !VideoFrameDecoder.shouldDropOutput T p) = some pts) :
    VideoFrameDecoder.shouldDropOutput T pts = false ∧
      pts ≥ T ∧
      ∃ pre post, seq = pre ++ pts :: post ∧
        ∀ p ∈ pre, VideoFrameDecoder.shouldDropOutput T p = true := by
  rw [List.find?_eq_some] at hacc
  obtain ⟨hp, pre, post, hseq, hpre⟩ := hacc
  have hfalse : VideoFrameDecoder.shouldDropOutput T pts = false := by simpa using hp
  have hdrop : ∀ p ∈ pre, VideoFrameDecoder.shouldDropOutput T p = true := by
    intro p hpmem
    simpa using hpre p hpmem
  refine ⟨hfalse, ?_, pre, post, hseq, hdrop⟩
  rcases (VideoFrameDecoder.shouldDropOutput_eq_false_iff T pts).mp hfalse with h | h
  · omega
  · exact h

theorem video_first_accepted_output_witness :
    (0 : Int) ≤ 100 ∧
      ([10, 50, 100, 200] : List Int).find?
        (fun p => !VideoFrameDecoder.shouldDropOutput 100 p) = some 100 ∧
      (VideoFrameDecoder.shouldDropOutput 100 100 = false ∧
        (100 : Int) ≥ 100 ∧
        ∃ pre post, ([10, 50, 100, 200] : List Int) = pre ++ 100 :: post ∧
          ∀ p ∈ pre, VideoFrameDecoder.shouldDropOutput 100 p = true) :=
  ⟨by decide, by rfl,
    video_first_accepted_output 100 (by decide) [10, 50, 100, 200] 100 (by rfl)⟩

/-- Claim C8. `VideoFrameDecoder::shouldDropOutput` is monotone in the output
timestamp: for `p1 ≤ p2`, if `p1` is accepted then `p2` is accepted, and if `p2`
is dropped then `p1` is dropped. -/
theorem video_drop_monotone (T p1 p2 : Int) (hle : p1 ≤ p2) :
    (VideoFrameDecoder.shouldDropOutput T p1 = false →
        VideoFrameDecoder.shouldDropOutput T p2 = false) ∧
      (VideoFrameDecoder.shouldDropOutput T p2 = true →
        VideoFrameDecoder.shouldDropOutput T p1 = true) := by
  constructor
  · intro h
    rw [VideoFrameDecoder.shouldDropOutput_eq_false_iff] at h ⊢
    omega
  · intro h
    rw [VideoFrameDecoder.shouldDropOutput_eq_true_iff] at h ⊢
    omega

theorem video_drop_monotone_witness :
    (40 : Int) ≤ 70 ∧
      ((VideoFrameDecoder.shouldDropOutput 50 40 = false →
          VideoFrameDecoder.shouldDropOutput 50 70 = false) ∧
        (VideoFrameDecoder.shouldDropOutput 50 70 = true →
          VideoFrameDecoder.shouldDropOutput 50 40 = true)) :=
  ⟨by decide, video_drop_monotone 50 40 70 (by decide)⟩

/-- Claim C5. The base `FrameDecoder::shouldDropOutput` returns false for every
output timestamp. -/
theorem base_never_drops (pts : Int) : FrameDecoder.shouldDropOutput pts = false :=
  rfl

/-- Claim C9. `MediaImageDecoder` declares no override of `shouldDropOutput`, so
the call dispatches to the base body and returns false for every timestamp. -/
theorem image_policy_never_drops (pts : Int) :
    Policy.shouldDropOutput Policy.MediaImageDecoder pts = FrameDecoder.shouldDropOutput pts ∧
      Policy.shouldDropOutput Policy.MediaImageDecoder pts = false :=
  ⟨rfl, rfl⟩

/-! ## Rect extraction of the video frame policy -/

/-- Claim C4. `VideoFrameDecoder::onExtractRect` returns `OK` if and only if no
rectangle is supplied; for every supplied `FrameRect`, whatever its four
coordinates, it returns `ERROR_UNSUPPORTED` (a status different from `OK`). -/
theorem video_extract_rect_status (c : StatusCodes) (hne : c.OK ≠ c.ERROR_UNSUPPORTED)
    (rect : Option FrameRect) :
    (VideoFrameDecoder.onExtractRect c rect = c.OK ↔ rect = none) ∧
      ∀ r : FrameRect, VideoFrameDecoder.onExtractRect c (some r) = c.ERROR_UNSUPPORTED := by
  constructor
  · cases rect with
    | none => exact ⟨fun _ => rfl, fun _ => rfl⟩
    | some r =>
      constructor
      · intro h
        exact absurd h.symm hne
      · intro h
        cases h
  · intro r
    rfl

theorem video_extract_rect_status_witness :
    ((⟨0, -1010⟩ : StatusCodes).OK ≠ (⟨0, -1010⟩ : StatusCodes).ERROR_UNSUPPORTED) ∧
      ((VideoFrameDecoder.onExtractRect ⟨0, -1010⟩ (some ⟨5, 7, 5, -3⟩) =
            (⟨0, -1010⟩ : StatusCodes).OK ↔
          (some ⟨5, 7, 5, -3⟩ : Option FrameRect) = none) ∧
        ∀ r : FrameRect,
          VideoFrameDecoder.onExtractRect ⟨0, -1010⟩ (some r) =
            (⟨0, -1010⟩ : StatusCodes).ERROR_UNSUPPORTED) :=
  ⟨by decide, video_extract_rect_status ⟨0, -1010⟩ (by decide) (some ⟨5, 7, 5, -3⟩)⟩

/-! ## The tiled image policy -/

/-- Claim C10. `MediaImageDecoder::onInputReceived` returns `OK` for every codec
buffer, sample metadata, `firstSample` value and flags word, and leaves the
sample metadata and the flags word as they were. -/
theorem image_input_step_ok {Buffer Meta : Type} (c : StatusCodes) (codecBuffer : Buffer)
    (sampleMeta : Meta) (firstSample : Bool) (flags : Option Nat) :
    (MediaImageDecoder.onInputReceived c codecBuffer sampleMeta firstSample flags).1 = c.OK ∧
      (MediaImageDecoder.onInputReceived c codecBuffer sampleMeta firstSample flags).2.1 =
        sampleMeta ∧
      (MediaImageDecoder.onInputReceived c codecBuffer sampleMeta firstSample flags).2.2 =
        flags :=
  ⟨rfl, rfl, rfl⟩

/-- Claim C6. Starting from a grid setup with at least one target tile, after any
number of decoded tile outputs handed to the output step by the drain loop, the
target-tile count is unchanged, the decoded-tile counter does not exceed it, and
`done` is set exactly when the counter equals the target-tile count. -/
theorem image_tile_counter_invariant (targetTiles : Int) (h : 1 ≤ targetTiles) (outputs : Nat) :
    (MediaImageDecoder.drain outputs (MediaImageDecoder.start targetTiles)).1.mTargetTiles =
        targetTiles ∧
      (MediaImageDecoder.drain outputs (MediaImageDecoder.start targetTiles)).1.mTilesDecoded ≤
        (MediaImageDecoder.drain outputs (MediaImageDecoder.start targetTiles)).1.mTargetTiles ∧
      ((MediaImageDecoder.drain outputs (MediaImageDecoder.start targetTiles)).2 = true ↔
        (MediaImageDecoder.drain outputs (MediaImageDecoder.start targetTiles)).1.mTilesDecoded =
          (MediaImageDecoder.drain outputs (MediaImageDecoder.start targetTiles)).1.mTargetTiles) := by
  obtain ⟨ht, _, hle, hiff⟩ :=
    MediaImageDecoder.inv_drain targetTiles outputs _ (MediaImageDecoder.inv_start targetTiles h)
  rw [ht]
  exact ⟨rfl, hle, hiff⟩

theorem image_tile_counter_invariant_witness :
    (1 : Int) ≤ 4 ∧
      ((MediaImageDecoder.drain 6 (MediaImageDecoder.start 4)).1.mTargetTiles = 4 ∧
        (MediaImageDecoder.drain 6 (MediaImageDecoder.start 4)).1.mTilesDecoded ≤
          (MediaImageDecoder.drain 6 (MediaImageDecoder.start 4)).1.mTargetTiles ∧
        ((MediaImageDecoder.drain 6 (MediaImageDecoder.start 4)).2 = true ↔
          (MediaImageDecoder.drain 6 (MediaImageDecoder.start 4)).1.mTilesDecoded =
            (MediaImageDecoder.drain 6 (MediaImageDecoder.start 4)).1.mTargetTiles)) :=
  ⟨by decide, image_tile_counter_invariant 4 (by decide) 6⟩

end android
